import Mathlib

/-!
# sync-cloud-resources: the sync workflow orchestrator

A shallow embedding of `cmd/ocm-support/sync-cloud-resources/cmd.go`.

The Go code talks to the outside through a handful of library calls
(`exec.Command(..).Run`, `os.Stat`, `os.MkdirTemp`, `os.OpenFile`, `os.Open`,
`io.Copy`, `File.Sync`, `File.Close`).  Each of them becomes an explicit
transition on a `World`: the world carries the history of calls made so far
(`log`), the contents of the regular files (`fs`), and an environment `env`
that decides, from the history and the current files, the outcome of every
call.  The environment is arbitrary, so a statement quantified over worlds is
a statement about every outcome of the external steps.

Writes to the standard output of the tool itself (`fmt.Println`, the live
copy of a command's output) are not recorded.
-/

namespace SyncCloudResources

/-! ## Data model -/

/-- A Go `error` value: its message, and whether `errors.Is(err, os.ErrNotExist)` holds. -/
structure GoError where
  msg : String
  notExist : Bool
deriving DecidableEq, Repr

/-- One byte of a file. -/
abbrev Byte := Fin 256

/-- The regular files: the file a path leads to (hard links and symbolic links make
several paths lead to one file), and the bytes of every file. -/
structure FS where
  files : String → Option Nat
  content : Nat → List Byte

/-- The calls made to the operating system, in the order of the log. -/
inductive Event where
  | spawn (app : String) (args : List String)
  | stat (path : String)
  | mkdirTemp (dir pattern : String)
  | openTrunc (path : String)
  | openRead (path : String)
  | copy (dst src : Nat)
  | sync (file : Nat)
  | close (file : Nat)
deriving DecidableEq, Repr

/-- What `cmd.Run()` gives back: its error, the combined stdout and stderr written to the
buffer, and the files as the process left them. -/
structure RunResult where
  err : Option GoError
  out : String
  fs : FS

/-- The environment: the outcome of every external call, as a function of the history
and of the current files.
* `tempDir` is `os.TempDir()`;
* `run h fs app args` is `exec.Command(app, args...).Run()`;
* `stat` is the error of `os.Stat`;
* `mkdirTemp h fs dir pattern` is `os.MkdirTemp(dir, pattern)`;
* `openFault` is a failure of `open(2)` on a path other than the path leading to no file;
* `copyFault` makes `io.Copy` fail after the given number of bytes;
* `syncFault` is the error of `File.Sync`. -/
structure Env where
  tempDir : String
  run : List Event → FS → String → List String → RunResult
  stat : List Event → FS → String → Option GoError
  mkdirTemp : List Event → FS → String → String → Except GoError String
  openFault : List Event → FS → String → Option GoError
  copyFault : List Event → FS → Nat → Nat → Option (Nat × GoError)
  syncFault : List Event → FS → Nat → Option GoError

/-- The state threaded through the program. -/
structure World where
  env : Env
  log : List Event
  fs : FS

/-- Append a call to the history. -/
def World.record (w : World) (e : Event) : World :=
  { w with log := w.log ++ [e] }

/-- Truncate file `i` to length zero. -/
def FS.truncate (fs : FS) (i : Nat) : FS :=
  { fs with content := fun k => if k = i then [] else fs.content k }

/-- Write `bytes` at offset zero of file `i`: bytes beyond the written range stay. -/
def FS.writeAtStart (fs : FS) (i : Nat) (bytes : List Byte) : FS :=
  { fs with content := fun k =>
      if k = i then bytes ++ (fs.content i).drop bytes.length else fs.content k }

/-! ## Library calls -/

/-- The call `os.OpenFile(path, os.O_WRONLY|os.O_TRUNC, 0666)`: no `O_CREATE`, so the path must lead
to a file; the file is truncated when the call succeeds. -/
def osOpenFileTrunc (path : String) (w : World) : Except GoError Nat × World :=
  let w1 := w.record (Event.openTrunc path)
  match w.env.openFault w.log w.fs path with
  | some e => (Except.error e, w1)
  | none =>
    match w.fs.files path with
    | none => (Except.error ⟨"open " ++ path ++ ": no such file or directory", true⟩, w1)
    | some i => (Except.ok i, { w1 with fs := w.fs.truncate i })

/-- The call `os.Open(path)`: open for reading. -/
def osOpen (path : String) (w : World) : Except GoError Nat × World :=
  let w1 := w.record (Event.openRead path)
  match w.env.openFault w.log w.fs path with
  | some e => (Except.error e, w1)
  | none =>
    match w.fs.files path with
    | none => (Except.error ⟨"open " ++ path ++ ": no such file or directory", true⟩, w1)
    | some j => (Except.ok j, w1)

/-- The call `io.Copy(dst, src)` on two freshly opened files: reads `src` to its end and writes the
bytes to `dst` from offset zero; a fault stops it after some bytes and gives an error. -/
def ioCopy (dst src : Nat) (w : World) : Option GoError × World :=
  let w1 := w.record (Event.copy dst src)
  let data := w.fs.content src
  match w.env.copyFault w.log w.fs dst src with
  | some (n, e) => (some e, { w1 with fs := w.fs.writeAtStart dst (data.take n) })
  | none => (none, { w1 with fs := w.fs.writeAtStart dst data })

/-- The call `file.Sync()`. -/
def fileSync (i : Nat) (w : World) : Option GoError × World :=
  (w.env.syncFault w.log w.fs i, w.record (Event.sync i))

/-- The call `file.Close()`, its error dropped as a deferred call drops it. -/
def fileClose (i : Nat) (w : World) : World :=
  w.record (Event.close i)

/-! ## The program -/

/-- The function `ExecuteCmd`: run `bash -c command`, capture stdout and stderr in one buffer. -/
def ExecuteCmd (command : String) (w : World) : (String × Option GoError) × World :=
  let app := "bash"
  let arg1 := "-c"
  let r := w.env.run w.log w.fs app [arg1, command]
  let w1 : World := { w with log := w.log ++ [Event.spawn app [arg1, command]], fs := r.fs }
  match r.err with
  | some err => (("", some ⟨err.msg ++ " : " ++ r.out, false⟩), w1)
  | none => ((r.out, none), w1)

/-- The function `CheckRefFormat`: the check is left to git. -/
def CheckRefFormat (branchName : String) (w : World) : Option GoError × World :=
  match ExecuteCmd ("git check-ref-format --branch " ++ branchName) w with
  | ((_, some err), w1) => (some err, w1)
  | ((_, none), w1) => (none, w1)

/-- The function `CheckIfFileExists`: only an error matching `os.ErrNotExist` is returned. -/
def CheckIfFileExists (filepath : String) (w : World) : Option GoError × World :=
  let w1 := w.record (Event.stat filepath)
  match w.env.stat w.log w.fs filepath with
  | some err => if err.notExist then (some err, w1) else (none, w1)
  | none => (none, w1)

/-- The call `os.MkdirTemp(dir, pattern)`. -/
def osMkdirTemp (dir pattern : String) (w : World) : Except GoError String × World :=
  (w.env.mkdirTemp w.log w.fs dir pattern, w.record (Event.mkdirTemp dir pattern))

/-- The function `ReplaceFileContent`, with its two deferred closes. -/
def ReplaceFileContent (originalFilePath filePathWithUpdatedText : String) (w : World) :
    Option GoError × World :=
  match osOpenFileTrunc originalFilePath w with
  | (Except.error err, w1) => (some err, w1)
  | (Except.ok originalFile, w1) =>
    match osOpen filePathWithUpdatedText w1 with
    | (Except.error err, w2) => (some err, fileClose originalFile w2)
    | (Except.ok newFile, w2) =>
      match ioCopy originalFile newFile w2 with
      | (some err, w3) => (some err, fileClose originalFile (fileClose newFile w3))
      | (none, w3) =>
        match fileSync originalFile w3 with
        | (err, w4) => (err, fileClose originalFile (fileClose newFile w4))

/-- The type `gitRepo`: a remote and the local path of its clone. -/
structure gitRepo where
  repoUrl : String
  localPath : String
deriving DecidableEq, Repr

/-- The method `gitRepo.Clone`. -/
def gitRepo.Clone (g : gitRepo) (w : World) : Option GoError × World :=
  match ExecuteCmd ("git clone " ++ g.repoUrl ++ " " ++ g.localPath) w with
  | ((_, err), w1) => (err, w1)

/-- The method `gitRepo.RemoteAdd`. -/
def gitRepo.RemoteAdd (g : gitRepo) (remoteName remoteUrl : String) (w : World) :
    Option GoError × World :=
  match ExecuteCmd
    ("git -C " ++ g.localPath ++ " remote add " ++ remoteName ++ " " ++ remoteUrl) w with
  | ((_, err), w1) => (err, w1)

/-- The method `gitRepo.Branch`. -/
def gitRepo.Branch (g : gitRepo) (branchName : String) (w : World) : Option GoError × World :=
  match ExecuteCmd ("git -C " ++ g.localPath ++ " checkout -b " ++ branchName) w with
  | ((_, err), w1) => (err, w1)

/-- The method `gitRepo.StageFiles`: one command per file, stopping at the first failure. -/
def gitRepo.StageFiles (g : gitRepo) : List String → World → Option GoError × World
  | [], w => (none, w)
  | file :: files, w =>
    match ExecuteCmd ("git -C " ++ g.localPath ++ " stage " ++ file) w with
    | ((_, some err), w1) => (some err, w1)
    | ((_, none), w1) => gitRepo.StageFiles g files w1

/-- The method `gitRepo.StageAllFiles`. -/
def gitRepo.StageAllFiles (g : gitRepo) (w : World) : Option GoError × World :=
  match ExecuteCmd ("git -C " ++ g.localPath ++ " stage .") w with
  | ((_, err), w1) => (err, w1)

/-- The method `gitRepo.Commit`: the message goes between double quotes. -/
def gitRepo.Commit (g : gitRepo) (message : String) (w : World) : Option GoError × World :=
  match ExecuteCmd ("git -C " ++ g.localPath ++ " commit -m \x22" ++ message ++ "\x22") w with
  | ((_, err), w1) => (err, w1)

/-- The method `gitRepo.Push`. -/
def gitRepo.Push (g : gitRepo) (remote remoteUrl : String) (w : World) :
    Option GoError × World :=
  match ExecuteCmd ("git -C " ++ g.localPath ++ " push " ++ remote ++ " " ++ remoteUrl) w with
  | ((_, err), w1) => (err, w1)

/-- The upstream repository cloned by every run. -/
def amsUpstreamRepo : String := "git@gitlab.cee.redhat.com:service/uhc-account-manager.git"

/-- The function `syncCloudResources`: `dryRun` is the flag `args.dryRun`, `branchName` and `csvPath`
are `argv[0]` and `argv[1]` (`cobra.ExactArgs(2)` lets no other number of arguments in). -/
def syncCloudResources (dryRun : Bool) (branchName csvPath : String) (w : World) :
    Option GoError × World :=
  if branchName = "" then (some ⟨"branch name cannot be empty", false⟩, w) else
  if csvPath = "" then (some ⟨"csv path cannot be empty", false⟩, w) else
  match CheckRefFormat branchName w with
  | (some err, w1) => (some ⟨"incorrect branch name: " ++ err.msg, false⟩, w1)
  | (none, w1) =>
  match CheckIfFileExists csvPath w1 with
  | (some err, w2) =>
    (some ⟨"an error occurred while checking if the csv files exists: " ++ err.msg, false⟩, w2)
  | (none, w2) =>
  match osMkdirTemp w2.env.tempDir branchName w2 with
  | (Except.error err, w3) =>
    (some ⟨"an error occurred while creating temporary directory: " ++ err.msg, false⟩, w3)
  | (Except.ok tempDir, w3) =>
  let amsRepo : gitRepo := { repoUrl := amsUpstreamRepo, localPath := tempDir }
  match amsRepo.Clone w3 with
  | (some err, w4) =>
    (some ⟨"an error occurred while cloning AMS repo: " ++ err.msg, false⟩, w4)
  | (none, w4) =>
  match amsRepo.Branch branchName w4 with
  | (some err, w5) =>
    (some ⟨"an error occurred while creating a new branch: " ++ err.msg, false⟩, w5)
  | (none, w5) =>
  match ReplaceFileContent (tempDir ++ "/config/quota-cloud-resources.csv") csvPath w5 with
  | (some err, w6) =>
    (some ⟨"an error occurred while getting the head of the reference: " ++ err.msg, false⟩, w6)
  | (none, w6) =>
  match ExecuteCmd ("cd " ++ tempDir ++ " && make install && make binary") w6 with
  | ((_, some err), w7) =>
    (some ⟨"an error occurred while building AMS: " ++ err.msg, false⟩, w7)
  | ((_, none), w7) =>
  match ExecuteCmd
    ("cd " ++ tempDir ++ " && " ++ tempDir ++ "/account-manager generate quota") w7 with
  | ((_, some err), w8) =>
    (some ⟨"an error occurred while generating quota rules: " ++ err.msg, false⟩, w8)
  | ((_, none), w8) =>
  match amsRepo.StageAllFiles w8 with
  | (some err, w9) =>
    (some ⟨"an error occurred while staging the files: " ++ err.msg, false⟩, w9)
  | (none, w9) =>
  match amsRepo.Commit ("Syncing cloud resources and quota rules for " ++ branchName) w9 with
  | (some err, w10) =>
    (some ⟨"an error occurred committing the changes: " ++ err.msg, false⟩, w10)
  | (none, w10) =>
  if dryRun then (none, w10) else
  match amsRepo.Push "origin" branchName w10 with
  | (some err, w11) =>
    (some ⟨"an error occurred while pushing the changes: " ++ err.msg, false⟩, w11)
  | (none, w11) => (none, w11)

/-! ## Observations on a run -/

/-- The command line of a call `bash -c command`, which is how `ExecuteCmd` runs a command. -/
def shellCommand : Event → Option String
  | Event.spawn app args =>
    if app = "bash" then
      match args with
      | [flag, command] => if flag = "-c" then some command else none
      | _ => none
    else none
  | _ => none

/-- The calls made between the world `w` and the later world `w1`. -/
def newCalls (w w1 : World) : List Event :=
  w1.log.drop w.log.length

/-- The commands passed to `ExecuteCmd` between `w` and `w1`, in order. -/
def issued (w w1 : World) : List String :=
  (newCalls w w1).filterMap shellCommand

/-- Whether a call touches the file system through the library (stat, temporary directory,
open, copy, sync, close). -/
def Event.isFileCall : Event → Bool
  | Event.spawn _ _ => false
  | _ => true

/-- Whether a call creates a temporary directory. -/
def Event.isMkdirTemp : Event → Bool
  | Event.mkdirTemp _ _ => true
  | _ => false

/-- The command of `gitRepo.Push` for the clone at `dir`. -/
def pushCommand (dir remote ref : String) : String :=
  "git -C " ++ dir ++ " push " ++ remote ++ " " ++ ref

/-! ## The pipeline as the specification draws it

`Start → ValidateBranch → ValidateCsv → CreateTempDir → Clone → Branch → ReplaceContent →
BuildAndGenerate → Stage → Commit → (DryRun? → Done | Push → Done)`, the build step being
two commands. -/

/-- The steps of the state machine. -/
inductive Step where
  | ValidateBranch | ValidateCsv | CreateTempDir | Clone | Branch | ReplaceContent
  | Build | Generate | Stage | Commit | Push
deriving DecidableEq, Repr

/-- The fixed order of the steps. -/
def fixedOrder : List Step :=
  [Step.ValidateBranch, Step.ValidateCsv, Step.CreateTempDir, Step.Clone, Step.Branch,
   Step.ReplaceContent, Step.Build, Step.Generate, Step.Stage, Step.Commit, Step.Push]

/-- The steps up to the commit: all of a dry run. -/
def throughCommit : List Step :=
  [Step.ValidateBranch, Step.ValidateCsv, Step.CreateTempDir, Step.Clone, Step.Branch,
   Step.ReplaceContent, Step.Build, Step.Generate, Step.Stage, Step.Commit]

/-- The steps a run goes through when nothing fails. -/
def planned (dryRun : Bool) : List Step :=
  if dryRun then throughCommit else fixedOrder

/-- Keep the directory of the run across a step that gives only an error. -/
def keepDir (dir : String) (r : Option GoError × World) : Except GoError String × World :=
  match r with
  | (some err, w) => (Except.error err, w)
  | (none, w) => (Except.ok dir, w)

/-- What each step does: the function of the program it calls, on the directory of the run
(the empty string until `CreateTempDir` has given one). -/
def stepAction (branchName csvPath : String) :
    Step → String → World → Except GoError String × World
  | Step.ValidateBranch, dir, w => keepDir dir (CheckRefFormat branchName w)
  | Step.ValidateCsv, dir, w => keepDir dir (CheckIfFileExists csvPath w)
  | Step.CreateTempDir, _, w => osMkdirTemp w.env.tempDir branchName w
  | Step.Clone, dir, w => keepDir dir (gitRepo.Clone ⟨amsUpstreamRepo, dir⟩ w)
  | Step.Branch, dir, w => keepDir dir (gitRepo.Branch ⟨amsUpstreamRepo, dir⟩ branchName w)
  | Step.ReplaceContent, dir, w =>
    keepDir dir (ReplaceFileContent (dir ++ "/config/quota-cloud-resources.csv") csvPath w)
  | Step.Build, dir, w =>
    keepDir dir
      (match ExecuteCmd ("cd " ++ dir ++ " && make install && make binary") w with
       | ((_, err), w1) => (err, w1))
  | Step.Generate, dir, w =>
    keepDir dir
      (match ExecuteCmd ("cd " ++ dir ++ " && " ++ dir ++ "/account-manager generate quota") w with
       | ((_, err), w1) => (err, w1))
  | Step.Stage, dir, w => keepDir dir (gitRepo.StageAllFiles ⟨amsUpstreamRepo, dir⟩ w)
  | Step.Commit, dir, w =>
    keepDir dir
      (gitRepo.Commit ⟨amsUpstreamRepo, dir⟩
        ("Syncing cloud resources and quota rules for " ++ branchName) w)
  | Step.Push, dir, w => keepDir dir (gitRepo.Push ⟨amsUpstreamRepo, dir⟩ "origin" branchName w)

/-- The words the orchestrator puts before the error of a failed step. -/
def stepContext : Step → String
  | Step.ValidateBranch => "incorrect branch name: "
  | Step.ValidateCsv => "an error occurred while checking if the csv files exists: "
  | Step.CreateTempDir => "an error occurred while creating temporary directory: "
  | Step.Clone => "an error occurred while cloning AMS repo: "
  | Step.Branch => "an error occurred while creating a new branch: "
  | Step.ReplaceContent => "an error occurred while getting the head of the reference: "
  | Step.Build => "an error occurred while building AMS: "
  | Step.Generate => "an error occurred while generating quota rules: "
  | Step.Stage => "an error occurred while staging the files: "
  | Step.Commit => "an error occurred committing the changes: "
  | Step.Push => "an error occurred while pushing the changes: "

/-- The account of a fail-fast run: the steps executed, the first failure, the directory of
the run and the world at the end. -/
structure Report where
  executed : List Step
  failure : Option (Step × GoError)
  dir : String
  world : World

/-- Fail-fast execution of a list of steps: each step runs only when every step before it
has succeeded, and the first failure ends the run. -/
def runSteps (act : Step → String → World → Except GoError String × World) :
    List Step → String → World → Report
  | [], dir, w => { executed := [], failure := none, dir := dir, world := w }
  | k :: ks, dir, w =>
    match act k dir w with
    | (Except.error err, w1) =>
      { executed := [k], failure := some (k, err), dir := dir, world := w1 }
    | (Except.ok dir1, w1) =>
      let r := runSteps act ks dir1 w1
      { r with executed := k :: r.executed }

/-- The fail-fast run of the steps up to the commit: whether they all succeed, the
temporary directory of the run, and the world in which the push, if any, is issued. -/
def upToCommit (branchName csvPath : String) (w : World) : Report :=
  runSteps (stepAction branchName csvPath) throughCommit "" w

/-! ## Concrete worlds -/

/-- A file system with the csv `res.csv` (file 0) and, at `a.txt` and `b.txt`, a longer
file 1 and a shorter file 2; `same.csv` is a second name of file 0. -/
def demoFS : FS where
  files := fun path =>
    if path = "res.csv" then some 0
    else if path = "same.csv" then some 0
    else if path = "a.txt" then some 1
    else if path = "b.txt" then some 2
    else none
  content := fun i =>
    if i = 0 then [10, 20, 30]
    else if i = 1 then [1, 2, 3, 4, 5]
    else if i = 2 then [7]
    else []

/-- An environment in which the commands listed in `bad` exit with status 1 and every other
command succeeds; `git clone` leaves the cloud resources file (file 5) in the clone;
`os.Stat` gives `statErr`; the temporary directory is made under `/tmp`. -/
def demoEnv (bad : List String) (statErr : Option GoError) : Env where
  tempDir := "/tmp"
  run := fun _ fs _ args =>
    match args with
    | [_, command] =>
      if command ∈ bad then ⟨some ⟨"exit status 1", false⟩, "fatal: failed\n", fs⟩
      else if command = "git clone " ++ amsUpstreamRepo ++ " /tmp/sync-1-042" then
        ⟨none, "done\n",
          { files := fun path =>
              if path = "/tmp/sync-1-042/config/quota-cloud-resources.csv" then some 5
              else fs.files path
            content := fun i => if i = 5 then [1, 1, 1, 1, 1, 1, 1] else fs.content i }⟩
      else ⟨none, "done\n", fs⟩
    | _ => ⟨none, "", fs⟩
  stat := fun _ _ _ => statErr
  mkdirTemp := fun _ _ dir pattern => Except.ok (dir ++ "/" ++ pattern ++ "-042")
  openFault := fun _ _ _ => none
  copyFault := fun _ _ _ _ => none
  syncFault := fun _ _ _ => none

/-- A world at its start, with the files of `demoFS`. -/
def demoWorld (bad : List String) (statErr : Option GoError) : World where
  env := demoEnv bad statErr
  log := []
  fs := demoFS

/-- A world in which the csv path `res.csv/x` runs through the regular file `res.csv`: it
leads to no file, and both `os.Stat` and `open(2)` fail on it with `not a directory`, an
error that does not match `os.ErrNotExist`.  Every command succeeds. -/
def notDirWorld : World where
  env :=
    { demoEnv [] (some ⟨"stat res.csv/x: not a directory", false⟩) with
      openFault := fun _ _ path =>
        if path = "res.csv/x" then some ⟨"open res.csv/x: not a directory", false⟩ else none }
  log := []
  fs := demoFS

/-! ## Lemmas on single calls -/

theorem ExecuteCmd_log (c : String) (w : World) :
    (ExecuteCmd c w).2.log = w.log ++ [Event.spawn "bash" ["-c", c]] := by
  unfold ExecuteCmd
  dsimp only
  split <;> rfl

theorem ExecuteCmd_env (c : String) (w : World) : (ExecuteCmd c w).2.env = w.env := by
  unfold ExecuteCmd
  dsimp only
  split <;> rfl

theorem ExecuteCmd_err (c : String) (w : World) :
    (ExecuteCmd c w).1.2 =
      (w.env.run w.log w.fs "bash" ["-c", c]).err.map
        (fun e => (⟨e.msg ++ " : " ++ (w.env.run w.log w.fs "bash" ["-c", c]).out, false⟩ :
          GoError)) := by
  unfold ExecuteCmd
  dsimp only
  split <;> simp_all

theorem CheckRefFormat_log (b : String) (w : World) :
    (CheckRefFormat b w).2.log =
      w.log ++ [Event.spawn "bash" ["-c", "git check-ref-format --branch " ++ b]] := by
  have h := ExecuteCmd_log ("git check-ref-format --branch " ++ b) w
  unfold CheckRefFormat
  split <;> simp_all

theorem CheckRefFormat_env (b : String) (w : World) : (CheckRefFormat b w).2.env = w.env := by
  have h := ExecuteCmd_env ("git check-ref-format --branch " ++ b) w
  unfold CheckRefFormat
  split <;> simp_all

theorem CheckIfFileExists_log (p : String) (w : World) :
    (CheckIfFileExists p w).2.log = w.log ++ [Event.stat p] := by
  unfold CheckIfFileExists
  dsimp only
  split
  · split <;> rfl
  · rfl

theorem CheckIfFileExists_env (p : String) (w : World) :
    (CheckIfFileExists p w).2.env = w.env := by
  unfold CheckIfFileExists
  dsimp only
  split
  · split <;> rfl
  · rfl

theorem ReplaceFileContent_ok (t s : String) (w : World)
    (h : (ReplaceFileContent t s w).1 = none) :
    ∃ i j, w.fs.files t = some i ∧ w.fs.files s = some j ∧
      (ReplaceFileContent t s w).2 =
        { env := w.env
          log := w.log ++ [Event.openTrunc t, Event.openRead s, Event.copy i j, Event.sync i,
            Event.close j, Event.close i]
          fs := (w.fs.truncate i).writeAtStart i ((w.fs.truncate i).content j) } := by
  unfold ReplaceFileContent osOpenFileTrunc at h ⊢
  simp only [World.record] at h ⊢
  cases hf1 : w.env.openFault w.log w.fs t with
  | some e => simp [hf1] at h
  | none =>
    cases hi : w.fs.files t with
    | none => simp [hf1, hi] at h
    | some i =>
      simp only [hf1, hi] at h ⊢
      unfold osOpen at h ⊢
      simp only [World.record] at h ⊢
      cases hf2 : w.env.openFault (w.log ++ [Event.openTrunc t]) (w.fs.truncate i) s with
      | some e => simp [hf2] at h
      | none =>
        have hfiles : (w.fs.truncate i).files s = w.fs.files s := rfl
        cases hj : w.fs.files s with
        | none => simp [hf2, hfiles, hj] at h
        | some j =>
          simp only [hf2, hfiles, hj] at h ⊢
          refine ⟨i, j, rfl, rfl, ?_⟩
          unfold ioCopy at h ⊢
          simp only [World.record] at h ⊢
          simp only [List.append_assoc, List.singleton_append, List.nil_append] at h ⊢
          cases hc : w.env.copyFault (w.log ++ [Event.openTrunc t, Event.openRead s])
              (w.fs.truncate i) i j with
          | some ne =>
            obtain ⟨n, e⟩ := ne
            simp [hc] at h
          | none => simp [hc, fileSync, fileClose, World.record]

theorem ReplaceFileContent_env (t s : String) (w : World) :
    (ReplaceFileContent t s w).2.env = w.env := by
  unfold ReplaceFileContent osOpenFileTrunc
  simp only [World.record]
  cases w.env.openFault w.log w.fs t with
  | some e => rfl
  | none =>
    cases w.fs.files t with
    | none => rfl
    | some i =>
      simp only [osOpen, World.record]
      cases w.env.openFault (w.log ++ [Event.openTrunc t]) (w.fs.truncate i) s with
      | some e => rfl
      | none =>
        cases (w.fs.truncate i).files s with
        | none => rfl
        | some j =>
          simp only [ioCopy, World.record]
          cases w.env.copyFault (w.log ++ [Event.openTrunc t] ++ [Event.openRead s])
              (w.fs.truncate i) i j with
          | some ne => rfl
          | none => rfl

theorem runSteps_append (act : Step → String → World → Except GoError String × World)
    (l1 l2 : List Step) (d : String) (w : World)
    (h : (runSteps act l1 d w).failure = none) :
    runSteps act (l1 ++ l2) d w =
      { runSteps act l2 (runSteps act l1 d w).dir (runSteps act l1 d w).world with
        executed := (runSteps act l1 d w).executed ++
          (runSteps act l2 (runSteps act l1 d w).dir (runSteps act l1 d w).world).executed } := by
  induction l1 generalizing d w with
  | nil => simp [runSteps]
  | cons k ks ih =>
    rcases hk : act k d w with ⟨e | d1, w1⟩
    · simp [runSteps, hk] at h
    · simp only [runSteps, hk, List.cons_append] at h ⊢
      have e := ih d1 w1 h
      simp only [List.append_eq]
      rw [e]

theorem throughCommit_ok (b p : String) (w : World)
    (h : (upToCommit b p w).failure = none) :
    ∃ i j h0 fs0,
      w.env.mkdirTemp h0 fs0 w.env.tempDir b =
        Except.ok (upToCommit b p w).dir ∧
      (upToCommit b p w).world.env = w.env ∧
      (upToCommit b p w).executed = throughCommit ∧
      (upToCommit b p w).world.log =
        w.log ++
          [Event.spawn "bash" ["-c", "git check-ref-format --branch " ++ b],
           Event.stat p,
           Event.mkdirTemp w.env.tempDir b,
           Event.spawn "bash" ["-c", "git clone " ++ amsUpstreamRepo ++ " " ++
             (upToCommit b p w).dir],
           Event.spawn "bash" ["-c", "git -C " ++
             (upToCommit b p w).dir ++ " checkout -b " ++ b],
           Event.openTrunc ((upToCommit b p w).dir ++
             "/config/quota-cloud-resources.csv"),
           Event.openRead p, Event.copy i j, Event.sync i, Event.close j, Event.close i,
           Event.spawn "bash" ["-c", "cd " ++
             (upToCommit b p w).dir ++
             " && make install && make binary"],
           Event.spawn "bash" ["-c", "cd " ++
             (upToCommit b p w).dir ++ " && " ++
             (upToCommit b p w).dir ++
             "/account-manager generate quota"],
           Event.spawn "bash" ["-c", "git -C " ++
             (upToCommit b p w).dir ++ " stage ."],
           Event.spawn "bash" ["-c", "git -C " ++
             (upToCommit b p w).dir ++ " commit -m \x22" ++
             ("Syncing cloud resources and quota rules for " ++ b) ++ "\x22"]] := by
  rcases h1 : CheckRefFormat b w with ⟨_ | e1, w1⟩
  swap
  · simp [upToCommit, runSteps, throughCommit, stepAction, keepDir, h1] at h
  rcases h2 : CheckIfFileExists p w1 with ⟨_ | e2, w2⟩
  swap
  · simp [upToCommit, runSteps, throughCommit, stepAction, keepDir, h1, h2] at h
  rcases h3 : osMkdirTemp w2.env.tempDir b w2 with ⟨e3 | d, w3⟩
  · simp [upToCommit, runSteps, throughCommit, stepAction, keepDir, h1, h2, h3] at h
  rcases h4 : gitRepo.Clone ⟨amsUpstreamRepo, d⟩ w3 with ⟨_ | e4, w4⟩
  swap
  · simp [upToCommit, runSteps, throughCommit, stepAction, keepDir, h1, h2, h3, h4] at h
  rcases h5 : gitRepo.Branch ⟨amsUpstreamRepo, d⟩ b w4 with ⟨_ | e5, w5⟩
  swap
  · simp [upToCommit, runSteps, throughCommit, stepAction, keepDir, h1, h2, h3, h4, h5] at h
  rcases h6 : ReplaceFileContent (d ++ "/config/quota-cloud-resources.csv") p w5
    with ⟨_ | e6, w6⟩
  swap
  · simp [upToCommit, runSteps, throughCommit, stepAction, keepDir, h1, h2, h3, h4, h5, h6] at h
  rcases h7 : ExecuteCmd ("cd " ++ d ++ " && make install && make binary") w6
    with ⟨⟨o7, _ | e7⟩, w7⟩
  swap
  · simp [upToCommit, runSteps, throughCommit, stepAction, keepDir, h1, h2, h3, h4, h5, h6, h7] at h
  rcases h8 : ExecuteCmd ("cd " ++ d ++ " && " ++ d ++ "/account-manager generate quota") w7
    with ⟨⟨o8, _ | e8⟩, w8⟩
  swap
  · simp [upToCommit, runSteps, throughCommit, stepAction, keepDir, h1, h2, h3, h4, h5, h6, h7, h8] at h
  rcases h9 : gitRepo.StageAllFiles ⟨amsUpstreamRepo, d⟩ w8 with ⟨_ | e9, w9⟩
  swap
  · simp [upToCommit, runSteps, throughCommit, stepAction, keepDir, h1, h2, h3, h4, h5, h6, h7, h8,
      h9] at h
  rcases h10 : gitRepo.Commit ⟨amsUpstreamRepo, d⟩
    ("Syncing cloud resources and quota rules for " ++ b) w9 with ⟨_ | e10, w10⟩
  swap
  · simp [upToCommit, runSteps, throughCommit, stepAction, keepDir, h1, h2, h3, h4, h5, h6, h7, h8,
      h9, h10] at h
  have hr : upToCommit b p w =
      { executed := throughCommit, failure := none, dir := d, world := w10 } := by
    simp [upToCommit, runSteps, throughCommit, stepAction, keepDir, h1, h2, h3, h4, h5, h6, h7, h8, h9,
      h10]
  rw [hr]
  dsimp only
  have l1 := CheckRefFormat_log b w
  have v1 := CheckRefFormat_env b w
  rw [h1] at l1 v1
  dsimp only at l1 v1
  have l2 := CheckIfFileExists_log p w1
  have v2 := CheckIfFileExists_env p w1
  rw [h2] at l2 v2
  dsimp only at l2 v2
  simp only [osMkdirTemp, Prod.mk.injEq] at h3
  obtain ⟨m3, e3⟩ := h3
  have l3 : w3.log = w2.log ++ [Event.mkdirTemp w2.env.tempDir b] := by rw [← e3]; rfl
  have v3 : w3.env = w2.env := by rw [← e3]; rfl
  have l4 := ExecuteCmd_log ("git clone " ++ amsUpstreamRepo ++ " " ++ d) w3
  have v4 := ExecuteCmd_env ("git clone " ++ amsUpstreamRepo ++ " " ++ d) w3
  have e4 : (ExecuteCmd ("git clone " ++ amsUpstreamRepo ++ " " ++ d) w3).2 = w4 :=
    congrArg Prod.snd h4
  rw [e4] at l4 v4
  have l5 := ExecuteCmd_log ("git -C " ++ d ++ " checkout -b " ++ b) w4
  have v5 := ExecuteCmd_env ("git -C " ++ d ++ " checkout -b " ++ b) w4
  have e5 : (ExecuteCmd ("git -C " ++ d ++ " checkout -b " ++ b) w4).2 = w5 :=
    congrArg Prod.snd h5
  rw [e5] at l5 v5
  obtain ⟨i, j, -, -, r6⟩ :=
    ReplaceFileContent_ok (d ++ "/config/quota-cloud-resources.csv") p w5 (by rw [h6])
  rw [h6] at r6
  dsimp only at r6
  have l6 : w6.log = w5.log ++ [Event.openTrunc (d ++ "/config/quota-cloud-resources.csv"),
      Event.openRead p, Event.copy i j, Event.sync i, Event.close j, Event.close i] := by
    rw [r6]
  have v6 : w6.env = w5.env := by rw [r6]
  have l7 := ExecuteCmd_log ("cd " ++ d ++ " && make install && make binary") w6
  have v7 := ExecuteCmd_env ("cd " ++ d ++ " && make install && make binary") w6
  rw [h7] at l7 v7
  dsimp only at l7 v7
  have l8 := ExecuteCmd_log ("cd " ++ d ++ " && " ++ d ++ "/account-manager generate quota") w7
  have v8 := ExecuteCmd_env ("cd " ++ d ++ " && " ++ d ++ "/account-manager generate quota") w7
  rw [h8] at l8 v8
  dsimp only at l8 v8
  have l9 := ExecuteCmd_log ("git -C " ++ d ++ " stage .") w8
  have v9 := ExecuteCmd_env ("git -C " ++ d ++ " stage .") w8
  have e9 : (ExecuteCmd ("git -C " ++ d ++ " stage .") w8).2 = w9 := congrArg Prod.snd h9
  rw [e9] at l9 v9
  have l10 := ExecuteCmd_log ("git -C " ++ d ++ " commit -m \x22" ++
    ("Syncing cloud resources and quota rules for " ++ b) ++ "\x22") w9
  have v10 := ExecuteCmd_env ("git -C " ++ d ++ " commit -m \x22" ++
    ("Syncing cloud resources and quota rules for " ++ b) ++ "\x22") w9
  have e10 : (ExecuteCmd ("git -C " ++ d ++ " commit -m \x22" ++
    ("Syncing cloud resources and quota rules for " ++ b) ++ "\x22") w9).2 = w10 :=
    congrArg Prod.snd h10
  rw [e10] at l10 v10
  have v2w : w2.env = w.env := v2.trans v1
  refine ⟨i, j, w2.log, w2.fs, ?_, ?_, rfl, ?_⟩
  · rw [← v2w]
    exact m3
  · rw [v10, v9, v8, v7, v6, v5, v4, v3, v2w]
  · rw [l10, l9, l8, l7, l6, l5, l4, l3, l2, l1, v2w]
    simp [List.append_assoc]

/-! ## The orchestrator against the fail-fast run -/

theorem sync_eq_runSteps (dry : Bool) (b p : String) (w : World) (hb : b ≠ "") (hp : p ≠ "") :
    syncCloudResources dry b p w =
      ((runSteps (stepAction b p) (planned dry) "" w).failure.map
          (fun ke => (⟨stepContext ke.1 ++ ke.2.msg, false⟩ : GoError)),
        (runSteps (stepAction b p) (planned dry) "" w).world) := by
  unfold syncCloudResources
  simp only [hb, hp, if_false]
  rcases h1 : CheckRefFormat b w with ⟨_ | e1, w1⟩
  swap
  · cases dry <;> simp [runSteps, planned, fixedOrder, throughCommit, stepAction, keepDir,
      stepContext, h1]
  rcases h2 : CheckIfFileExists p w1 with ⟨_ | e2, w2⟩
  swap
  · cases dry <;> simp [runSteps, planned, fixedOrder, throughCommit, stepAction, keepDir,
      stepContext, h1, h2]
  rcases h3 : osMkdirTemp w2.env.tempDir b w2 with ⟨e3 | d, w3⟩
  · cases dry <;> simp [runSteps, planned, fixedOrder, throughCommit, stepAction, keepDir,
      stepContext, h1, h2, h3]
  rcases h4 : gitRepo.Clone ⟨amsUpstreamRepo, d⟩ w3 with ⟨_ | e4, w4⟩
  swap
  · cases dry <;> simp [runSteps, planned, fixedOrder, throughCommit, stepAction, keepDir,
      stepContext, h1, h2, h3, h4]
  rcases h5 : gitRepo.Branch ⟨amsUpstreamRepo, d⟩ b w4 with ⟨_ | e5, w5⟩
  swap
  · cases dry <;> simp [runSteps, planned, fixedOrder, throughCommit, stepAction, keepDir,
      stepContext, h1, h2, h3, h4, h5]
  rcases h6 : ReplaceFileContent (d ++ "/config/quota-cloud-resources.csv") p w5
    with ⟨_ | e6, w6⟩
  swap
  · cases dry <;> simp [runSteps, planned, fixedOrder, throughCommit, stepAction, keepDir,
      stepContext, h1, h2, h3, h4, h5, h6]
  rcases h7 : ExecuteCmd ("cd " ++ d ++ " && make install && make binary") w6
    with ⟨⟨o7, _ | e7⟩, w7⟩
  swap
  · cases dry <;> simp [runSteps, planned, fixedOrder, throughCommit, stepAction, keepDir,
      stepContext, h1, h2, h3, h4, h5, h6, h7]
  rcases h8 : ExecuteCmd ("cd " ++ d ++ " && " ++ d ++ "/account-manager generate quota") w7
    with ⟨⟨o8, _ | e8⟩, w8⟩
  swap
  · cases dry <;> simp [runSteps, planned, fixedOrder, throughCommit, stepAction, keepDir,
      stepContext, h1, h2, h3, h4, h5, h6, h7, h8]
  rcases h9 : gitRepo.StageAllFiles ⟨amsUpstreamRepo, d⟩ w8 with ⟨_ | e9, w9⟩
  swap
  · cases dry <;> simp [runSteps, planned, fixedOrder, throughCommit, stepAction, keepDir,
      stepContext, h1, h2, h3, h4, h5, h6, h7, h8, h9]
  rcases h10 : gitRepo.Commit ⟨amsUpstreamRepo, d⟩
    ("Syncing cloud resources and quota rules for " ++ b) w9 with ⟨_ | e10, w10⟩
  swap
  · cases dry <;> simp [runSteps, planned, fixedOrder, throughCommit, stepAction, keepDir,
      stepContext, h1, h2, h3, h4, h5, h6, h7, h8, h9, h10]
  cases dry
  · rcases h11 : gitRepo.Push ⟨amsUpstreamRepo, d⟩ "origin" b w10 with ⟨_ | e11, w11⟩ <;>
      simp [runSteps, planned, fixedOrder, throughCommit, stepAction, keepDir,
        stepContext, h1, h2, h3, h4, h5, h6, h7, h8, h9, h10, h11]
  · simp [runSteps, planned, fixedOrder, throughCommit, stepAction, keepDir,
      stepContext, h1, h2, h3, h4, h5, h6, h7, h8, h9, h10]

theorem newCalls_of_log (w w1 : World) (l : List Event) (h : w1.log = w.log ++ l) :
    newCalls w w1 = l := by
  unfold newCalls
  rw [h]
  exact List.drop_left _ _

theorem str_ne_of_data {a b : String} (h : a.data ≠ b.data) : a ≠ b :=
  fun e => h (congrArg String.data e)

theorem pushCommand_not_before (d b remote ref : String) :
    pushCommand d remote ref ∉
      ["git check-ref-format --branch " ++ b,
       "git clone " ++ amsUpstreamRepo ++ " " ++ d,
       "git -C " ++ d ++ " checkout -b " ++ b,
       "cd " ++ d ++ " && make install && make binary",
       "cd " ++ d ++ " && " ++ d ++ "/account-manager generate quota",
       "git -C " ++ d ++ " stage .",
       "git -C " ++ d ++ " commit -m \x22" ++
         ("Syncing cloud resources and quota rules for " ++ b) ++ "\x22"] := by
  simp only [List.mem_cons, List.mem_singleton, List.not_mem_nil, or_false, not_or]
  refine ⟨?_, ?_, ?_, ?_, ?_, ?_, ?_⟩ <;>
    · apply str_ne_of_data
      simp [pushCommand, String.data_append]

/-! ## Lemmas on fail-fast runs -/

theorem runSteps_executed_initial (act : Step → String → World → Except GoError String × World)
    (l : List Step) (d : String) (w : World) : (runSteps act l d w).executed <+: l := by
  induction l generalizing d w with
  | nil => simp [runSteps]
  | cons k ks ih =>
    rcases hk : act k d w with ⟨e | d1, w1⟩
    · simp [runSteps, hk]
    · simp only [runSteps, hk]
      exact (List.prefix_cons_inj k).2 (ih d1 w1)

theorem runSteps_no_failure (act : Step → String → World → Except GoError String × World)
    (l : List Step) (d : String) (w : World) (h : (runSteps act l d w).failure = none) :
    (runSteps act l d w).executed = l := by
  induction l generalizing d w with
  | nil => simp [runSteps]
  | cons k ks ih =>
    rcases hk : act k d w with ⟨e | d1, w1⟩
    · simp [runSteps, hk] at h
    · simp only [runSteps, hk] at h ⊢
      rw [ih d1 w1 h]

theorem runSteps_failure (act : Step → String → World → Except GoError String × World)
    (l : List Step) (d : String) (w : World) (k : Step) (e : GoError)
    (h : (runSteps act l d w).failure = some (k, e)) :
    (runSteps act l d w).executed.getLast? = some k ∧
      ∃ d0 w0, (act k d0 w0).1 = Except.error e := by
  induction l generalizing d w with
  | nil => simp [runSteps] at h
  | cons k1 ks ih =>
    rcases hk : act k1 d w with ⟨e1 | d1, w1⟩
    · simp only [runSteps, hk, Option.some.injEq, Prod.mk.injEq] at h ⊢
      obtain ⟨rfl, rfl⟩ := h
      exact ⟨rfl, d, w, by rw [hk]⟩
    · simp only [runSteps, hk] at h ⊢
      obtain ⟨hl, hex⟩ := ih d1 w1 h
      refine ⟨?_, hex⟩
      rw [List.getLast?_cons, hl]
      rfl

theorem prefix_ending_at (ex : List Step) (k : Step) (hp : ex <+: fixedOrder)
    (hl : ex.getLast? = some k) : ex = fixedOrder.take (fixedOrder.indexOf k + 1) := by
  have hm : ex ∈ fixedOrder.inits := (List.mem_inits _ _).2 hp
  simp only [fixedOrder, List.inits, List.map, List.mem_cons, List.mem_singleton,
    List.not_mem_nil, or_false] at hm
  rcases hm with rfl | rfl | rfl | rfl | rfl | rfl | rfl | rfl | rfl | rfl | rfl | rfl <;>
    simp at hl <;> subst hl <;> decide

theorem planned_initial (dry : Bool) : planned dry <+: fixedOrder := by
  cases dry
  · exact List.prefix_refl _
  · exact ⟨[Step.Push], rfl⟩

theorem newCalls_self (w : World) : newCalls w w = [] := by
  simp [newCalls]

theorem CheckRefFormat_err (b : String) (w : World) :
    (CheckRefFormat b w).1 = (ExecuteCmd ("git check-ref-format --branch " ++ b) w).1.2 := by
  unfold CheckRefFormat
  split <;> simp_all

/-! ## The claims -/

/-- C1. A dry run in which every step succeeds (for a non-empty branch name and csv path:
the fail-fast run of the ten steps up to the commit meets no failure) returns nil; the
commands passed to `ExecuteCmd` are, in this order, the reference-format check, the clone,
`checkout -b`, the build, the generation, `stage .` and the commit, and nothing else; and
no push command for the clone of the run, whatever its remote and reference, is among
them. -/
theorem dry_run_issues_no_push (b p : String) (w : World) (hb : b ≠ "") (hp : p ≠ "")
    (h : (upToCommit b p w).failure = none) :
    (syncCloudResources true b p w).1 = none ∧
    issued w (syncCloudResources true b p w).2 =
      ["git check-ref-format --branch " ++ b,
       "git clone " ++ amsUpstreamRepo ++ " " ++ (upToCommit b p w).dir,
       "git -C " ++ (upToCommit b p w).dir ++ " checkout -b " ++ b,
       "cd " ++ (upToCommit b p w).dir ++ " && make install && make binary",
       "cd " ++ (upToCommit b p w).dir ++ " && " ++ (upToCommit b p w).dir ++
         "/account-manager generate quota",
       "git -C " ++ (upToCommit b p w).dir ++ " stage .",
       "git -C " ++ (upToCommit b p w).dir ++ " commit -m \x22" ++
         ("Syncing cloud resources and quota rules for " ++ b) ++ "\x22"] ∧
    ∀ remote ref : String,
      pushCommand (upToCommit b p w).dir remote ref ∉
        issued w (syncCloudResources true b p w).2 := by
  have hs := sync_eq_runSteps true b p w hb hp
  obtain ⟨i, j, h0, fs0, -, -, -, hlog⟩ := throughCommit_ok b p w h
  have hw : (syncCloudResources true b p w).2 = (upToCommit b p w).world := by
    rw [hs]
    rfl
  have he : (syncCloudResources true b p w).1 = none := by
    rw [hs]
    show ((upToCommit b p w).failure.map _) = none
    rw [h]
    rfl
  have hi : issued w (syncCloudResources true b p w).2 =
      ["git check-ref-format --branch " ++ b,
       "git clone " ++ amsUpstreamRepo ++ " " ++ (upToCommit b p w).dir,
       "git -C " ++ (upToCommit b p w).dir ++ " checkout -b " ++ b,
       "cd " ++ (upToCommit b p w).dir ++ " && make install && make binary",
       "cd " ++ (upToCommit b p w).dir ++ " && " ++ (upToCommit b p w).dir ++
         "/account-manager generate quota",
       "git -C " ++ (upToCommit b p w).dir ++ " stage .",
       "git -C " ++ (upToCommit b p w).dir ++ " commit -m \x22" ++
         ("Syncing cloud resources and quota rules for " ++ b) ++ "\x22"] := by
    unfold issued
    rw [newCalls_of_log _ _ _ (hw ▸ hlog)]
    simp [shellCommand]
  refine ⟨he, hi, ?_⟩
  intro remote ref
  rw [hi]
  exact pushCommand_not_before _ b remote ref

/-- C1, on the example of the specification: branch `sync-1`, an existing csv, every
command succeeding. -/
theorem dry_run_issues_no_push_witness :
    "sync-1" ≠ "" ∧ "res.csv" ≠ "" ∧
    (upToCommit "sync-1" "res.csv" (demoWorld [] none)).failure = none ∧
    (syncCloudResources true "sync-1" "res.csv" (demoWorld [] none)).1 = none ∧
    issued (demoWorld [] none)
        (syncCloudResources true "sync-1" "res.csv" (demoWorld [] none)).2 =
      ["git check-ref-format --branch sync-1",
       "git clone git@gitlab.cee.redhat.com:service/uhc-account-manager.git /tmp/sync-1-042",
       "git -C /tmp/sync-1-042 checkout -b sync-1",
       "cd /tmp/sync-1-042 && make install && make binary",
       "cd /tmp/sync-1-042 && /tmp/sync-1-042/account-manager generate quota",
       "git -C /tmp/sync-1-042 stage .",
       "git -C /tmp/sync-1-042 commit -m \x22Syncing cloud resources and quota rules for sync-1\x22"] :=
  ⟨by decide, by decide, by decide,
    (dry_run_issues_no_push "sync-1" "res.csv" (demoWorld [] none) (by decide) (by decide)
      (by decide)).1,
    by decide⟩

/-- C2. With the dry-run flag false, a non-empty branch name and csv path, and every step up
to the commit succeeding: the directory of the run is one `os.MkdirTemp(os.TempDir(), b)`
gave; the commands passed to `ExecuteCmd` are the seven of a dry run followed by
`git -C <tempDir> push origin b`, which is therefore the last one; no other command of the
run is a push command for that clone; and the result is nil exactly when that push
succeeds. -/
theorem push_issued_once_and_last (b p : String) (w : World) (hb : b ≠ "") (hp : p ≠ "")
    (h : (upToCommit b p w).failure = none) :
    (∃ h0 fs0, w.env.mkdirTemp h0 fs0 w.env.tempDir b = Except.ok (upToCommit b p w).dir) ∧
    issued w (syncCloudResources false b p w).2 =
      ["git check-ref-format --branch " ++ b,
       "git clone " ++ amsUpstreamRepo ++ " " ++ (upToCommit b p w).dir,
       "git -C " ++ (upToCommit b p w).dir ++ " checkout -b " ++ b,
       "cd " ++ (upToCommit b p w).dir ++ " && make install && make binary",
       "cd " ++ (upToCommit b p w).dir ++ " && " ++ (upToCommit b p w).dir ++
         "/account-manager generate quota",
       "git -C " ++ (upToCommit b p w).dir ++ " stage .",
       "git -C " ++ (upToCommit b p w).dir ++ " commit -m \x22" ++
         ("Syncing cloud resources and quota rules for " ++ b) ++ "\x22",
       "git -C " ++ (upToCommit b p w).dir ++ " push origin " ++ b] ∧
    (issued w (syncCloudResources false b p w).2).getLast? =
      some (pushCommand (upToCommit b p w).dir "origin" b) ∧
    (∀ remote ref : String,
      pushCommand (upToCommit b p w).dir remote ref ∉
        (issued w (syncCloudResources false b p w).2).dropLast) ∧
    (issued w (syncCloudResources false b p w).2).count
      (pushCommand (upToCommit b p w).dir "origin" b) = 1 ∧
    ((syncCloudResources false b p w).1 = none ↔
      ((upToCommit b p w).world.env.run (upToCommit b p w).world.log (upToCommit b p w).world.fs
        "bash" ["-c", pushCommand (upToCommit b p w).dir "origin" b]).err = none) := by
  have hs := sync_eq_runSteps false b p w hb hp
  obtain ⟨i, j, h0, fs0, hm, -, -, hlog⟩ := throughCommit_ok b p w h
  have hsplit : planned false = throughCommit ++ [Step.Push] := rfl
  have happ := runSteps_append (stepAction b p) throughCommit [Step.Push] "" w h
  rw [hsplit, happ] at hs
  change syncCloudResources false b p w =
    (Option.map (fun ke => (⟨stepContext ke.1 ++ ke.2.msg, false⟩ : GoError))
        (runSteps (stepAction b p) [Step.Push] (upToCommit b p w).dir
          (upToCommit b p w).world).failure,
      (runSteps (stepAction b p) [Step.Push] (upToCommit b p w).dir
        (upToCommit b p w).world).world) at hs
  have hpc : "git -C " ++ (upToCommit b p w).dir ++ " push " ++ "origin" ++ " " ++ b =
      pushCommand (upToCommit b p w).dir "origin" b := rfl
  have hpc2 : "git -C " ++ (upToCommit b p w).dir ++ " push origin " ++ b =
      pushCommand (upToCommit b p w).dir "origin" b := by
    apply String.ext
    simp [pushCommand, String.data_append]
  have hlogP := ExecuteCmd_log (pushCommand (upToCommit b p w).dir "origin" b)
    (upToCommit b p w).world
  have herrP := ExecuteCmd_err (pushCommand (upToCommit b p w).dir "origin" b)
    (upToCommit b p w).world
  have hi : issued w (syncCloudResources false b p w).2 =
      ["git check-ref-format --branch " ++ b,
       "git clone " ++ amsUpstreamRepo ++ " " ++ (upToCommit b p w).dir,
       "git -C " ++ (upToCommit b p w).dir ++ " checkout -b " ++ b,
       "cd " ++ (upToCommit b p w).dir ++ " && make install && make binary",
       "cd " ++ (upToCommit b p w).dir ++ " && " ++ (upToCommit b p w).dir ++
         "/account-manager generate quota",
       "git -C " ++ (upToCommit b p w).dir ++ " stage .",
       "git -C " ++ (upToCommit b p w).dir ++ " commit -m \x22" ++
         ("Syncing cloud resources and quota rules for " ++ b) ++ "\x22",
       pushCommand (upToCommit b p w).dir "origin" b] := by
    have hl : (syncCloudResources false b p w).2.log = (upToCommit b p w).world.log ++
        [Event.spawn "bash" ["-c", pushCommand (upToCommit b p w).dir "origin" b]] := by
      rw [hs, ← hlogP]
      simp only [runSteps, stepAction, gitRepo.Push, hpc]
      rcases ExecuteCmd (pushCommand (upToCommit b p w).dir "origin" b)
        (upToCommit b p w).world with ⟨⟨o, _ | e⟩, w11⟩ <;> rfl
    rw [hlog, List.append_assoc] at hl
    unfold issued
    rw [newCalls_of_log _ _ _ hl]
    simp [shellCommand]
  have hnot := pushCommand_not_before (upToCommit b p w).dir b
  refine ⟨⟨h0, fs0, hm⟩, ?_, ?_, ?_, ?_, ?_⟩
  · rw [hi, hpc2]
  · rw [hi]
    simp
  · intro remote ref
    rw [hi]
    simpa using hnot remote ref
  · rw [hi]
    have hc := hnot "origin" b
    simp only [List.mem_cons, List.mem_singleton, List.not_mem_nil, or_false, not_or] at hc
    obtain ⟨c1, c2, c3, c4, c5, c6, c7⟩ := hc
    simp [List.count_cons, Ne.symm c1, Ne.symm c2, Ne.symm c3, Ne.symm c4, Ne.symm c5,
      Ne.symm c6, Ne.symm c7]
  · have hnone : (ExecuteCmd (pushCommand (upToCommit b p w).dir "origin" b)
        (upToCommit b p w).world).1.2 = none ↔
        ((upToCommit b p w).world.env.run (upToCommit b p w).world.log
          (upToCommit b p w).world.fs "bash"
          ["-c", pushCommand (upToCommit b p w).dir "origin" b]).err = none := by
      rw [herrP]
      simp
    rw [← hnone, hs]
    simp only [runSteps, stepAction, gitRepo.Push, hpc]
    rcases ExecuteCmd (pushCommand (upToCommit b p w).dir "origin" b)
      (upToCommit b p w).world with ⟨⟨o, _ | e⟩, w11⟩ <;> simp [keepDir]

/-- C2, for branch `sync-1` in a world where every command succeeds: one push, the last
command, and a nil result. -/
theorem push_issued_once_and_last_witness :
    "sync-1" ≠ "" ∧ "res.csv" ≠ "" ∧
    (upToCommit "sync-1" "res.csv" (demoWorld [] none)).failure = none ∧
    (issued (demoWorld [] none)
        (syncCloudResources false "sync-1" "res.csv" (demoWorld [] none)).2).getLast? =
      some (pushCommand (upToCommit "sync-1" "res.csv" (demoWorld [] none)).dir "origin"
        "sync-1") ∧
    pushCommand (upToCommit "sync-1" "res.csv" (demoWorld [] none)).dir "origin" "sync-1" =
      "git -C /tmp/sync-1-042 push origin sync-1" ∧
    (syncCloudResources false "sync-1" "res.csv" (demoWorld [] none)).1 = none :=
  ⟨by decide, by decide, by decide,
    (push_issued_once_and_last "sync-1" "res.csv" (demoWorld [] none) (by decide) (by decide)
      (by decide)).2.2.1,
    by decide, by decide⟩

/-- C3. The orchestrator is fail-fast.  With an empty argument it makes no call at all.
Otherwise its effects are those of the fail-fast run of the planned steps (all eleven, or
the ten up to the commit in a dry run): the steps executed are an initial segment of the
fixed order; with no failure all the planned steps are executed and the result is nil; and
when step `k` fails with error `e`, the steps executed are the fixed order up to and
including `k`, nothing after it, and the result is the error whose message is the context
of the step followed by the message of `e`. -/
theorem orchestrator_is_fail_fast (dry : Bool) (b p : String) (w : World) :
    (b = "" ∨ p = "" → newCalls w (syncCloudResources dry b p w).2 = []) ∧
    (b ≠ "" → p ≠ "" →
      (syncCloudResources dry b p w).2 =
        (runSteps (stepAction b p) (planned dry) "" w).world ∧
      (runSteps (stepAction b p) (planned dry) "" w).executed <+: fixedOrder ∧
      ((runSteps (stepAction b p) (planned dry) "" w).failure = none →
        (runSteps (stepAction b p) (planned dry) "" w).executed = planned dry ∧
        (syncCloudResources dry b p w).1 = none) ∧
      ∀ k e, (runSteps (stepAction b p) (planned dry) "" w).failure = some (k, e) →
        (runSteps (stepAction b p) (planned dry) "" w).executed =
          fixedOrder.take (fixedOrder.indexOf k + 1) ∧
        (∃ d0 w0, (stepAction b p k d0 w0).1 = Except.error e) ∧
        (syncCloudResources dry b p w).1 = some ⟨stepContext k ++ e.msg, false⟩) := by
  constructor
  · intro h
    have hw : (syncCloudResources dry b p w).2 = w := by
      unfold syncCloudResources
      rcases h with h | h
      · simp [h]
      · by_cases hb : b = "" <;> simp [h, hb]
    rw [hw]
    exact newCalls_self w
  · intro hb hp
    have hs := sync_eq_runSteps dry b p w hb hp
    have hpre := (runSteps_executed_initial (stepAction b p) (planned dry) "" w).trans
      (planned_initial dry)
    refine ⟨by rw [hs], hpre, ?_, ?_⟩
    · intro hn
      refine ⟨runSteps_no_failure _ _ _ _ hn, ?_⟩
      rw [hs, hn]
      rfl
    · intro k e hf
      obtain ⟨hl, hex⟩ := runSteps_failure _ _ _ _ k e hf
      have hr : (syncCloudResources dry b p w).1 = some ⟨stepContext k ++ e.msg, false⟩ := by
        rw [hs, hf]
        rfl
      exact ⟨prefix_ending_at _ k hpre hl, hex, hr⟩

/-- C3, when the branch already exists: `checkout -b` fails, the run stops at `Branch` after
three commands, and neither commit nor push is executed. -/
theorem orchestrator_is_fail_fast_witness :
    "sync-1" ≠ "" ∧ "res.csv" ≠ "" ∧
    (runSteps (stepAction "sync-1" "res.csv") (planned false) ""
      (demoWorld ["git -C /tmp/sync-1-042 checkout -b sync-1"] none)).failure =
      some (Step.Branch, ⟨"exit status 1 : fatal: failed\n", false⟩) ∧
    (runSteps (stepAction "sync-1" "res.csv") (planned false) ""
      (demoWorld ["git -C /tmp/sync-1-042 checkout -b sync-1"] none)).executed =
      fixedOrder.take (fixedOrder.indexOf Step.Branch + 1) ∧
    fixedOrder.take (fixedOrder.indexOf Step.Branch + 1) =
      [Step.ValidateBranch, Step.ValidateCsv, Step.CreateTempDir, Step.Clone, Step.Branch] ∧
    (syncCloudResources false "sync-1" "res.csv"
      (demoWorld ["git -C /tmp/sync-1-042 checkout -b sync-1"] none)).1 =
      some ⟨"an error occurred while creating a new branch: exit status 1 : fatal: failed\n",
        false⟩ ∧
    issued (demoWorld ["git -C /tmp/sync-1-042 checkout -b sync-1"] none)
      (syncCloudResources false "sync-1" "res.csv"
        (demoWorld ["git -C /tmp/sync-1-042 checkout -b sync-1"] none)).2 =
      ["git check-ref-format --branch sync-1",
       "git clone git@gitlab.cee.redhat.com:service/uhc-account-manager.git /tmp/sync-1-042",
       "git -C /tmp/sync-1-042 checkout -b sync-1"] :=
  ⟨by decide, by decide, by decide,
    (((orchestrator_is_fail_fast false "sync-1" "res.csv"
      (demoWorld ["git -C /tmp/sync-1-042 checkout -b sync-1"] none)).2
        (by decide) (by decide)).2.2.2 Step.Branch
          ⟨"exit status 1 : fatal: failed\n", false⟩ (by decide)).1,
    by decide, by decide, by decide⟩

/-- C4. When the branch name or the csv path is the empty string, the orchestrator returns
an error and leaves the world as it was: no command is passed to `ExecuteCmd`, no call is
made to the file system, no file changes.  The error is `branch name cannot be empty` when
the branch name is empty, and `csv path cannot be empty` otherwise. -/
theorem empty_arguments_rejected (dry : Bool) (b p : String) (w : World)
    (h : b = "" ∨ p = "") :
    (syncCloudResources dry b p w).1 =
      some ⟨if b = "" then "branch name cannot be empty" else "csv path cannot be empty",
        false⟩ ∧
    (syncCloudResources dry b p w).2 = w ∧
    issued w (syncCloudResources dry b p w).2 = [] ∧
    newCalls w (syncCloudResources dry b p w).2 = [] := by
  have hw : syncCloudResources dry b p w =
      (some ⟨if b = "" then "branch name cannot be empty" else "csv path cannot be empty",
        false⟩, w) := by
    unfold syncCloudResources
    rcases h with h | h
    · simp [h]
    · by_cases hb : b = "" <;> simp [h, hb]
  rw [hw]
  simp [issued, newCalls_self]

/-- C4, for an empty csv path and for an empty branch name. -/
theorem empty_arguments_rejected_witness :
    ("sync-1" = "" ∨ "" = "") ∧
    (syncCloudResources false "sync-1" "" (demoWorld [] none)).1 =
      some ⟨"csv path cannot be empty", false⟩ ∧
    (syncCloudResources false "" "" (demoWorld [] none)).1 =
      some ⟨"branch name cannot be empty", false⟩ ∧
    newCalls (demoWorld [] none) (syncCloudResources false "sync-1" "" (demoWorld [] none)).2 =
      [] :=
  ⟨by decide, by decide, by decide,
    (empty_arguments_rejected false "sync-1" "" (demoWorld [] none) (by decide)).2.2.2⟩

/-- C5. For a non-empty branch name whose reference-format check fails, the orchestrator
returns an error; every command it passes to `ExecuteCmd` is that check (and with a
non-empty csv path the check is issued exactly once), so there is no clone, no
`checkout -b` and no push; and it makes no call to the file system, so no temporary
directory is created. -/
theorem rejected_branch_name_stops_run (dry : Bool) (b p : String) (w : World)
    (hb : b ≠ "")
    (hfail : (w.env.run w.log w.fs "bash"
      ["-c", "git check-ref-format --branch " ++ b]).err ≠ none) :
    (syncCloudResources dry b p w).1 ≠ none ∧
    (∀ c ∈ issued w (syncCloudResources dry b p w).2,
      c = "git check-ref-format --branch " ++ b) ∧
    (p ≠ "" → issued w (syncCloudResources dry b p w).2 =
      ["git check-ref-format --branch " ++ b]) ∧
    (∀ e ∈ newCalls w (syncCloudResources dry b p w).2,
      e.isFileCall = false ∧ e.isMkdirTemp = false) := by
  by_cases hp : p = ""
  · have hw : syncCloudResources dry b p w = (some ⟨"csv path cannot be empty", false⟩, w) := by
      unfold syncCloudResources
      simp [hp, hb]
    rw [hw]
    simp [issued, newCalls_self, hp]
  · have herr := ExecuteCmd_err ("git check-ref-format --branch " ++ b) w
    have hlog := CheckRefFormat_log b w
    have hce := CheckRefFormat_err b w
    rcases h1 : CheckRefFormat b w with ⟨_ | e1, w1⟩
    · exfalso
      rw [h1] at hce
      rw [← hce] at herr
      cases hr : (w.env.run w.log w.fs "bash"
        ["-c", "git check-ref-format --branch " ++ b]).err with
      | none => exact hfail hr
      | some e => simp [hr] at herr
    · rw [h1] at hlog
      have hw : syncCloudResources dry b p w =
          (some ⟨"incorrect branch name: " ++ e1.msg, false⟩, w1) := by
        unfold syncCloudResources
        simp [hp, hb, h1]
      rw [hw]
      have hn : newCalls w w1 =
          [Event.spawn "bash" ["-c", "git check-ref-format --branch " ++ b]] :=
        newCalls_of_log w w1 _ hlog
      simp [issued, hn, shellCommand, Event.isFileCall, Event.isMkdirTemp]

/-- C5, for a branch name git refuses. -/
theorem rejected_branch_name_stops_run_witness :
    "a..b" ≠ "" ∧
    (((demoWorld ["git check-ref-format --branch a..b"] none).env.run [] demoFS "bash"
      ["-c", "git check-ref-format --branch " ++ "a..b"]).err ≠ none) ∧
    (syncCloudResources false "a..b" "res.csv"
      (demoWorld ["git check-ref-format --branch a..b"] none)).1 ≠ none ∧
    issued (demoWorld ["git check-ref-format --branch a..b"] none)
      (syncCloudResources false "a..b" "res.csv"
        (demoWorld ["git check-ref-format --branch a..b"] none)).2 =
      ["git check-ref-format --branch a..b"] :=
  ⟨by decide, by decide,
    (rejected_branch_name_stops_run false "a..b" "res.csv"
      (demoWorld ["git check-ref-format --branch a..b"] none) (by decide) (by decide)).1,
    by decide⟩

/-- C6 as stated fails for a csv path that leads to no file system entry but whose stat
fails otherwise than with not-found: `res.csv/x`, under the regular file `res.csv`.  The
csv validation lets it pass, the temporary directory is created, the repository is cloned
and branched, and the content replacement truncates the file of the clone before the run
fails on opening the csv. -/
theorem non_directory_csv_path_passes_validation :
    notDirWorld.fs.files "res.csv/x" = none ∧
    (CheckRefFormat "sync-1" notDirWorld).2.env.stat
      (CheckRefFormat "sync-1" notDirWorld).2.log
      (CheckRefFormat "sync-1" notDirWorld).2.fs "res.csv/x" =
      some ⟨"stat res.csv/x: not a directory", false⟩ ∧
    (CheckIfFileExists "res.csv/x" (CheckRefFormat "sync-1" notDirWorld).2).1 = none ∧
    newCalls notDirWorld (syncCloudResources true "sync-1" "res.csv/x" notDirWorld).2 =
      [Event.spawn "bash" ["-c", "git check-ref-format --branch sync-1"],
       Event.stat "res.csv/x",
       Event.mkdirTemp "/tmp" "sync-1",
       Event.spawn "bash" ["-c",
         "git clone git@gitlab.cee.redhat.com:service/uhc-account-manager.git /tmp/sync-1-042"],
       Event.spawn "bash" ["-c", "git -C /tmp/sync-1-042 checkout -b sync-1"],
       Event.openTrunc "/tmp/sync-1-042/config/quota-cloud-resources.csv",
       Event.openRead "res.csv/x",
       Event.close 5] ∧
    (syncCloudResources true "sync-1" "res.csv/x" notDirWorld).2.fs.content 5 = [] ∧
    (syncCloudResources true "sync-1" "res.csv/x" notDirWorld).1 =
      some ⟨"an error occurred while getting the head of the reference: " ++
        "open res.csv/x: not a directory", false⟩ := by
  decide

/-- C6, amended. For a non-empty branch name and a csv path that `os.Stat`, at the moment
the orchestrator asks, reports as not found (an error matching `os.ErrNotExist`): the
orchestrator returns an error; the only calls it makes are the reference-format check and
the stat of the csv path, so no temporary directory is created and neither the clone nor
the content replacement is reached; and when the branch name passes its check and the csv
path is not empty, the run fails at the csv validation, with the stat error in the
message. -/
theorem missing_csv_stops_run (dry : Bool) (b p : String) (w : World) (hb : b ≠ "")
    (hstat : ∃ e, (CheckRefFormat b w).2.env.stat (CheckRefFormat b w).2.log
      (CheckRefFormat b w).2.fs p = some e ∧ e.notExist = true) :
    (syncCloudResources dry b p w).1 ≠ none ∧
    (∀ ev ∈ newCalls w (syncCloudResources dry b p w).2,
      ev = Event.spawn "bash" ["-c", "git check-ref-format --branch " ++ b] ∨
      ev = Event.stat p) ∧
    (∀ ev ∈ newCalls w (syncCloudResources dry b p w).2, ev.isMkdirTemp = false) ∧
    (∀ c ∈ issued w (syncCloudResources dry b p w).2,
      c = "git check-ref-format --branch " ++ b) ∧
    ((CheckRefFormat b w).1 = none → p ≠ "" →
      ∃ e, (CheckRefFormat b w).2.env.stat (CheckRefFormat b w).2.log
          (CheckRefFormat b w).2.fs p = some e ∧
        (syncCloudResources dry b p w).1 =
          some ⟨"an error occurred while checking if the csv files exists: " ++ e.msg,
            false⟩ ∧
        newCalls w (syncCloudResources dry b p w).2 =
          [Event.spawn "bash" ["-c", "git check-ref-format --branch " ++ b], Event.stat p]) := by
  by_cases hp : p = ""
  · have hw : syncCloudResources dry b p w = (some ⟨"csv path cannot be empty", false⟩, w) := by
      unfold syncCloudResources
      simp [hp, hb]
    rw [hw]
    simp [issued, newCalls_self, hp]
  · have hlog := CheckRefFormat_log b w
    rcases h1 : CheckRefFormat b w with ⟨_ | e1, w1⟩
    · rw [h1] at hlog hstat
      dsimp only at hlog hstat
      obtain ⟨e, hse, hne⟩ := hstat
      have h2 : CheckIfFileExists p w1 = (some e, w1.record (Event.stat p)) := by
        unfold CheckIfFileExists
        simp [hse, hne]
      have hw : syncCloudResources dry b p w =
          (some ⟨"an error occurred while checking if the csv files exists: " ++ e.msg,
            false⟩, w1.record (Event.stat p)) := by
        unfold syncCloudResources
        simp [hp, hb, h1, h2]
      have hn : newCalls w (w1.record (Event.stat p)) =
          [Event.spawn "bash" ["-c", "git check-ref-format --branch " ++ b], Event.stat p] := by
        apply newCalls_of_log
        simp [World.record, hlog]
      rw [hw]
      simp [issued, hn, shellCommand, Event.isMkdirTemp, hse, hp]
    · rw [h1] at hlog
      have hw : syncCloudResources dry b p w =
          (some ⟨"incorrect branch name: " ++ e1.msg, false⟩, w1) := by
        unfold syncCloudResources
        simp [hp, hb, h1]
      rw [hw]
      have hn : newCalls w w1 =
          [Event.spawn "bash" ["-c", "git check-ref-format --branch " ++ b]] :=
        newCalls_of_log w w1 _ hlog
      simp [issued, hn, shellCommand, Event.isMkdirTemp]

/-- C6 amended, for a csv path that is not there. -/
theorem missing_csv_stops_run_witness :
    "sync-1" ≠ "" ∧
    (∃ e, (CheckRefFormat "sync-1"
        (demoWorld [] (some ⟨"stat gone.csv: no such file or directory", true⟩))).2.env.stat
      (CheckRefFormat "sync-1"
        (demoWorld [] (some ⟨"stat gone.csv: no such file or directory", true⟩))).2.log
      (CheckRefFormat "sync-1"
        (demoWorld [] (some ⟨"stat gone.csv: no such file or directory", true⟩))).2.fs
      "gone.csv" = some e ∧ e.notExist = true) ∧
    (syncCloudResources true "sync-1" "gone.csv"
      (demoWorld [] (some ⟨"stat gone.csv: no such file or directory", true⟩))).1 ≠ none ∧
    newCalls (demoWorld [] (some ⟨"stat gone.csv: no such file or directory", true⟩))
      (syncCloudResources true "sync-1" "gone.csv"
        (demoWorld [] (some ⟨"stat gone.csv: no such file or directory", true⟩))).2 =
      [Event.spawn "bash" ["-c", "git check-ref-format --branch sync-1"],
       Event.stat "gone.csv"] :=
  ⟨by decide, ⟨⟨"stat gone.csv: no such file or directory", true⟩, by decide, rfl⟩,
    (missing_csv_stops_run true "sync-1" "gone.csv"
      (demoWorld [] (some ⟨"stat gone.csv: no such file or directory", true⟩)) (by decide)
      ⟨⟨"stat gone.csv: no such file or directory", true⟩, by decide, rfl⟩).1,
    by decide⟩

/-- C7 as stated fails when target and source are one file: with `res.csv` given as both,
`ReplaceFileContent` returns nil and leaves the file empty, not with the three bytes it
held when the call was made. -/
theorem replace_onto_itself_empties_file :
    (demoWorld [] none).fs.files "res.csv" = some 0 ∧
    (demoWorld [] none).fs.content 0 = [10, 20, 30] ∧
    (ReplaceFileContent "res.csv" "res.csv" (demoWorld [] none)).1 = none ∧
    (ReplaceFileContent "res.csv" "res.csv" (demoWorld [] none)).2.fs.content 0 = [] ∧
    (ReplaceFileContent "res.csv" "res.csv" (demoWorld [] none)).2.fs.content 0 ≠
      (demoWorld [] none).fs.content 0 := by
  decide

/-- C7, amended. When the target path and the source path lead to two different existing
files and `ReplaceFileContent` returns nil, the target afterwards holds exactly the bytes
the source held when the call was made, with the same length, whatever the target held
before; the source keeps its bytes and both paths lead where they led. -/
theorem replace_round_trip (t s : String) (w : World) (i j : Nat)
    (ht : w.fs.files t = some i) (hs : w.fs.files s = some j) (hne : i ≠ j)
    (hok : (ReplaceFileContent t s w).1 = none) :
    (ReplaceFileContent t s w).2.fs.content i = w.fs.content j ∧
    ((ReplaceFileContent t s w).2.fs.content i).length = (w.fs.content j).length ∧
    (ReplaceFileContent t s w).2.fs.content j = w.fs.content j ∧
    (ReplaceFileContent t s w).2.fs.files = w.fs.files := by
  obtain ⟨i1, j1, hi1, hj1, hw⟩ := ReplaceFileContent_ok t s w hok
  rw [ht] at hi1
  rw [hs] at hj1
  cases hi1
  cases hj1
  have hji : ¬ j = i := fun h => hne h.symm
  rw [hw]
  simp [FS.writeAtStart, FS.truncate, hji]

/-- C7 amended, shrinking (`a.txt`, five bytes, replaced by the one byte of `b.txt`) and
growing (the other way round). -/
theorem replace_round_trip_witness :
    (demoWorld [] none).fs.files "a.txt" = some 1 ∧
    (demoWorld [] none).fs.files "b.txt" = some 2 ∧ 1 ≠ 2 ∧
    (ReplaceFileContent "a.txt" "b.txt" (demoWorld [] none)).1 = none ∧
    (ReplaceFileContent "a.txt" "b.txt" (demoWorld [] none)).2.fs.content 1 =
      (demoWorld [] none).fs.content 2 ∧
    (ReplaceFileContent "a.txt" "b.txt" (demoWorld [] none)).2.fs.content 1 = [7] ∧
    (ReplaceFileContent "b.txt" "a.txt" (demoWorld [] none)).2.fs.content 2 =
      [1, 2, 3, 4, 5] :=
  ⟨by decide, by decide, by decide, by decide,
    (replace_round_trip "a.txt" "b.txt" (demoWorld [] none) 1 2 (by decide) (by decide)
      (by decide) (by decide)).1,
    by decide, by decide⟩

/-- C8 as stated fails: when `os.Stat` fails with a permission error, `CheckIfFileExists`
returns nil. -/
theorem stat_permission_error_is_masked :
    (demoWorld [] (some ⟨"stat /root/x.csv: permission denied", false⟩)).env.stat [] demoFS
      "/root/x.csv" = some ⟨"stat /root/x.csv: permission denied", false⟩ ∧
    (CheckIfFileExists "/root/x.csv"
      (demoWorld [] (some ⟨"stat /root/x.csv: permission denied", false⟩))).1 = none := by
  decide

/-- C8, amended. `CheckIfFileExists` makes one call, the stat of the path; it returns the
stat error when that error matches `os.ErrNotExist`, and nil in every other case: when the
stat succeeds and also when it fails with any other error. -/
theorem CheckIfFileExists_reports_only_not_exist (path : String) (w : World) :
    newCalls w (CheckIfFileExists path w).2 = [Event.stat path] ∧
    (∀ e, w.env.stat w.log w.fs path = some e → e.notExist = true →
      (CheckIfFileExists path w).1 = some e) ∧
    (∀ e, w.env.stat w.log w.fs path = some e → e.notExist = false →
      (CheckIfFileExists path w).1 = none) ∧
    (w.env.stat w.log w.fs path = none → (CheckIfFileExists path w).1 = none) := by
  refine ⟨newCalls_of_log _ _ _ (CheckIfFileExists_log path w), ?_, ?_, ?_⟩
  · intro e he hn
    simp [CheckIfFileExists, he, hn]
  · intro e he hn
    simp [CheckIfFileExists, he, hn]
  · intro he
    simp [CheckIfFileExists, he]

/-- C8 amended, for a path that does not exist. -/
theorem CheckIfFileExists_reports_only_not_exist_witness :
    (demoWorld [] (some ⟨"stat gone.csv: no such file or directory", true⟩)).env.stat
      (demoWorld [] (some ⟨"stat gone.csv: no such file or directory", true⟩)).log
      (demoWorld [] (some ⟨"stat gone.csv: no such file or directory", true⟩)).fs
      "gone.csv" = some ⟨"stat gone.csv: no such file or directory", true⟩ ∧
    (CheckIfFileExists "gone.csv"
      (demoWorld [] (some ⟨"stat gone.csv: no such file or directory", true⟩))).1 =
      some ⟨"stat gone.csv: no such file or directory", true⟩ :=
  ⟨by decide,
    (CheckIfFileExists_reports_only_not_exist "gone.csv"
      (demoWorld [] (some ⟨"stat gone.csv: no such file or directory", true⟩))).2.1
      ⟨"stat gone.csv: no such file or directory", true⟩ (by decide) rfl⟩

/-- C9 as stated fails: given the empty string, `CheckRefFormat` does call `ExecuteCmd`,
with `git check-ref-format --branch ` and nothing after it. -/
theorem CheckRefFormat_runs_git_on_empty_name :
    issued (demoWorld ["git check-ref-format --branch "] none)
      (CheckRefFormat "" (demoWorld ["git check-ref-format --branch "] none)).2 =
      ["git check-ref-format --branch "] ∧
    issued (demoWorld ["git check-ref-format --branch "] none)
      (CheckRefFormat "" (demoWorld ["git check-ref-format --branch "] none)).2 ≠ [] := by
  decide

/-- C9, amended. For every name, the empty one included, `CheckRefFormat` makes exactly one
`ExecuteCmd` call, `git check-ref-format --branch <name>`, and returns an error exactly when
that command fails.  The empty string is rejected by the caller: `syncCloudResources`
returns `branch name cannot be empty` for it and passes no command to `ExecuteCmd`. -/
theorem CheckRefFormat_always_runs_check (name : String) (w : World) :
    issued w (CheckRefFormat name w).2 = ["git check-ref-format --branch " ++ name] ∧
    ((CheckRefFormat name w).1 ≠ none ↔
      (w.env.run w.log w.fs "bash" ["-c", "git check-ref-format --branch " ++ name]).err ≠
        none) ∧
    (∀ (dry : Bool) (p : String),
      (syncCloudResources dry "" p w).1 = some ⟨"branch name cannot be empty", false⟩ ∧
      issued w (syncCloudResources dry "" p w).2 = []) := by
  refine ⟨?_, ?_, ?_⟩
  · unfold issued
    rw [newCalls_of_log _ _ _ (CheckRefFormat_log name w)]
    simp [shellCommand]
  · rw [CheckRefFormat_err, ExecuteCmd_err]
    simp
  · intro dry p
    have hw : syncCloudResources dry "" p w =
        (some ⟨"branch name cannot be empty", false⟩, w) := by
      unfold syncCloudResources
      simp
    rw [hw]
    simp [issued, newCalls_self]

/-- C10. `ExecuteCmd c` starts exactly one process, `bash -c c`.  When the run fails with
error `e`, the result is the empty string and the error whose message is the message of `e`,
` : `, and the combined output; when the run succeeds, the result is the combined output
and nil. -/
theorem ExecuteCmd_contract (c : String) (w : World) :
    newCalls w (ExecuteCmd c w).2 = [Event.spawn "bash" ["-c", c]] ∧
    (∀ e, (w.env.run w.log w.fs "bash" ["-c", c]).err = some e →
      (ExecuteCmd c w).1 =
        ("", some ⟨e.msg ++ " : " ++ (w.env.run w.log w.fs "bash" ["-c", c]).out, false⟩)) ∧
    ((w.env.run w.log w.fs "bash" ["-c", c]).err = none →
      (ExecuteCmd c w).1 = ((w.env.run w.log w.fs "bash" ["-c", c]).out, none)) := by
  refine ⟨newCalls_of_log _ _ _ (ExecuteCmd_log c w), ?_, ?_⟩
  · intro e he
    simp [ExecuteCmd, he]
  · intro he
    simp [ExecuteCmd, he]

/-- C10, for a command that exits with status 1 and for one that succeeds. -/
theorem ExecuteCmd_contract_witness :
    ((demoWorld ["false"] none).env.run (demoWorld ["false"] none).log
      (demoWorld ["false"] none).fs "bash" ["-c", "false"]).err =
      some ⟨"exit status 1", false⟩ ∧
    (ExecuteCmd "false" (demoWorld ["false"] none)).1 =
      ("", some ⟨"exit status 1" ++ " : " ++
        ((demoWorld ["false"] none).env.run (demoWorld ["false"] none).log
          (demoWorld ["false"] none).fs "bash" ["-c", "false"]).out, false⟩) ∧
    (ExecuteCmd "false" (demoWorld ["false"] none)).1 =
      ("", some ⟨"exit status 1 : fatal: failed\n", false⟩) ∧
    (ExecuteCmd "true" (demoWorld ["false"] none)).1 = ("done\n", none) :=
  ⟨by decide,
    (ExecuteCmd_contract "false" (demoWorld ["false"] none)).2.1 ⟨"exit status 1", false⟩
      (by decide),
    by decide, by decide⟩

end SyncCloudResources
